import Mathlib

/-!
Verification of the OSI upper-layer stack of an IEC 61850 MMS client
(COTP/TPKT framing, ISO 8327 session SPDUs, and the MMS client dispatcher).

Bytes are modelled as `Nat`; every place the Rust source narrows with an
`as u8` / `as u16` cast is modelled with an explicit `% 256` / `% 65536`.
Fallible Rust functions returning `Result` are modelled with `Except`;
a Rust slice-index expression that can panic is modelled as a dedicated
error value (documented at its definition).
-/

/-- A byte value; the encoders below only ever produce values `< 256`,
with explicit `% 256` wherever the source narrows with `as u8`. -/
abbrev Byte := Nat

/-- `u16::to_be_bytes` on a value stored as `Nat`. -/
def u16_be_bytes (n : Nat) : List Byte := [n / 256 % 256, n % 256]

namespace Cotp61850

/-- `TpduSize` COTP option (tag 0xC0).  The `value` octet is stored raw,
exactly as in the source (`struct TpduSize { value: u8 }`). -/
structure TpduSize where
  value : Byte
deriving DecidableEq, Repr

/-- `TpduSize::to_bytes`. -/
def TpduSize.to_bytes (t : TpduSize) : List Byte := [0xc0, 0x01, t.value]

/-- `TpduSize::len`. -/
def TpduSize.len (_ : TpduSize) : Nat := 3

/-- `TselDst` COTP option (tag 0xC2). -/
structure TselDst where
  value : List Byte
deriving DecidableEq, Repr

/-- `TselDst::to_bytes`: tag, length (`as u8`), value. -/
def TselDst.to_bytes (t : TselDst) : List Byte :=
  0xc2 :: (t.value.length % 256) :: t.value

/-- `TselDst::len`. -/
def TselDst.len (t : TselDst) : Nat := 2 + t.value.length

/-- `TselSrc` COTP option (tag 0xC1). -/
structure TselSrc where
  value : List Byte
deriving DecidableEq, Repr

/-- `TselSrc::to_bytes`: tag, length (`as u8`), value. -/
def TselSrc.to_bytes (t : TselSrc) : List Byte :=
  0xc1 :: (t.value.length % 256) :: t.value

/-- `TselSrc::len`. -/
def TselSrc.len (t : TselSrc) : Nat := 2 + t.value.length

/-- `enum CotpOptions`. -/
inductive CotpOptions where
  | TpduSize (t : TpduSize)
  | TSelDst (t : TselDst)
  | TSelSrc (t : TselSrc)
deriving DecidableEq, Repr

/-- `CotpOptions::to_bytes`. -/
def CotpOptions.to_bytes : CotpOptions → List Byte
  | .TpduSize t => t.to_bytes
  | .TSelDst t => t.to_bytes
  | .TSelSrc t => t.to_bytes

/-- `CotpOptions::len`. -/
def CotpOptions.len : CotpOptions → Nat
  | .TpduSize t => t.len
  | .TSelDst t => t.len
  | .TSelSrc t => t.len

/-- `options_to_bytes`. -/
def options_to_bytes (options : List CotpOptions) : List Byte :=
  options.foldl (fun bytes o => bytes ++ o.to_bytes) []

/-- `enum Eot` (the DT end-of-transmission marker byte); the source
variants `NoEot` / `Eot` are lower-cased here because Lean reserves the
type's own name inside its namespace. -/
inductive Eot where
  | noEot
  | eot
deriving DecidableEq, Repr

/-- The byte value of an `Eot` (`Eot as u8`). -/
def Eot.toByte : Eot → Byte
  | .noEot => 0x00
  | .eot => 0x80

/-- `struct CrTpdu` (COTP connection request). -/
structure CrTpdu where
  li : Byte
  dst_ref : Nat
  src_ref : Nat
  options : List CotpOptions
deriving DecidableEq, Repr

/-- `CrTpdu::new`: the length indicator is option bytes + 6, narrowed `as u8`. -/
def CrTpdu.new (dst_ref src_ref : Nat) (options : List CotpOptions) : CrTpdu :=
  { li := ((options.map CotpOptions.len).sum + 6) % 256
    dst_ref := dst_ref
    src_ref := src_ref
    options := options }

/-- `CrTpdu::to_bytes`. -/
def CrTpdu.to_bytes (t : CrTpdu) : List Byte :=
  t.li :: 0xe0 :: (u16_be_bytes t.dst_ref ++ u16_be_bytes t.src_ref ++ [0x00]
    ++ options_to_bytes t.options)

/-- `CrTpdu::len`. -/
def CrTpdu.len (t : CrTpdu) : Nat := t.li + 1

/-- `struct CcTpdu` (COTP connection confirm). -/
structure CcTpdu where
  li : Byte
  dst_ref : Nat
  src_ref : Nat
  options : List CotpOptions
deriving DecidableEq, Repr

/-- `CcTpdu::to_bytes`. -/
def CcTpdu.to_bytes (t : CcTpdu) : List Byte :=
  t.li :: 0xd0 :: (u16_be_bytes t.dst_ref ++ u16_be_bytes t.src_ref ++ [0x00]
    ++ options_to_bytes t.options)

/-- `CcTpdu::len`. -/
def CcTpdu.len (t : CcTpdu) : Nat := t.li + 1

/-- `struct DtTpdu` (COTP data TPDU). -/
structure DtTpdu where
  eot : Eot
  data : List Byte
deriving DecidableEq, Repr

/-- `DtTpdu::new`. -/
def DtTpdu.new (eot : Eot) (data : List Byte) : DtTpdu := { eot := eot, data := data }

/-- `DtTpdu::to_bytes`. -/
def DtTpdu.to_bytes (t : DtTpdu) : List Byte :=
  0x02 :: 0xf0 :: t.eot.toByte :: t.data

/-- `DtTpdu::len`. -/
def DtTpdu.len (t : DtTpdu) : Nat := 3 + t.data.length

/-- `enum Cotp`. -/
inductive Cotp where
  | Cr (t : CrTpdu)
  | Cc (t : CcTpdu)
  | Dt (t : DtTpdu)
deriving DecidableEq, Repr

/-- `Cotp::to_bytes`. -/
def Cotp.to_bytes : Cotp → List Byte
  | .Cr t => t.to_bytes
  | .Cc t => t.to_bytes
  | .Dt t => t.to_bytes

/-- `Cotp::len`. -/
def Cotp.len : Cotp → Nat
  | .Cr t => t.len
  | .Cc t => t.len
  | .Dt t => t.len

/-- `struct Tpkt`. -/
structure Tpkt where
  length : Nat
  cotp : Cotp
deriving DecidableEq, Repr

/-- `Tpkt::from_cotp`: the length field includes the 4-byte header
and is stored in a `u16` (`as u16` narrowing). -/
def Tpkt.from_cotp (cotp : Cotp) : Tpkt :=
  { length := (cotp.len + 4) % 65536, cotp := cotp }

/-- `Tpkt::to_bytes`: version 0x03, reserved 0x00, big-endian length, TPDU. -/
def Tpkt.to_bytes (t : Tpkt) : List Byte :=
  0x03 :: 0x00 :: (u16_be_bytes t.length ++ t.cotp.to_bytes)

/-- COTP layer errors (`enum Error` in `cotp.rs`), restricted to the
variants reachable from the functions modelled here. -/
inductive CotpError where
  | WrongCotpType
  | ConnectionFailed
  | InvalidEot
deriving DecidableEq, Repr

/-- The option list built by `ConnectionHandler::request_connection`:
TPDU-size `COTP_MAX_TPDU_SIZE as u8` (8192 truncated to a byte), then the
remote and local transport selectors from the configuration. -/
def request_connection_options (local_t_sel remote_t_sel : List Byte) : List CotpOptions :=
  [ .TpduSize { value := 8192 % 256 },
    .TSelDst { value := remote_t_sel },
    .TSelSrc { value := local_t_sel } ]

/-- The CR TPDU sent by `request_connection` (dst-ref 0, src-ref `local_ref = 1`). -/
def request_connection_cr (local_t_sel remote_t_sel : List Byte) : CrTpdu :=
  CrTpdu.new 0 1 (request_connection_options local_t_sel remote_t_sel)

/-- The bytes written to the socket by `request_connection`:
the CR TPDU wrapped in a TPKT. -/
def request_connection_bytes (local_t_sel remote_t_sel : List Byte) : List Byte :=
  (Tpkt.from_cotp (.Cr (request_connection_cr local_t_sel remote_t_sel))).to_bytes

/-- The reply handling of `request_connection` (everything after the CR is
written): a non-CC TPDU is `WrongCotpType`; a CC whose `dst_ref` echoes
`local_ref = 1` yields a connection whose `tpdu_size` is hard-coded to
`COTP_MAX_TPDU_SIZE` (the CC's TPDU-size option is ignored); any other CC is
`ConnectionFailed`.  Returns the resulting connection's `tpdu_size`. -/
def request_connection_handle_reply (reply : Cotp) : Except CotpError Nat :=
  match reply with
  | .Cc cc_tpdu => if cc_tpdu.dst_ref = 1 then .ok 8192 else .error .ConnectionFailed
  | _ => .error .WrongCotpType

/-- The chunking performed by Rust's `slice::chunks(n)`: successive blocks
of `n` elements, the last possibly shorter; the empty slice yields no chunks.
(`chunks` requires `n > 0`; all callers here pass `tpdu_size - 3 ≥ 125`.) -/
def chunksList (n : Nat) (l : List Byte) : List (List Byte) :=
  if hl : l = [] then []
  else if hn : n = 0 then [l]
  else l.take n :: chunksList n (l.drop n)
termination_by l.length
decreasing_by
  simp only [List.length_drop]
  have : l.length ≠ 0 := fun h0 => hl (List.eq_nil_of_length_eq_zero h0)
  omega

/-- `CotpConnection::send_data`, at the level of the DT TPDUs it builds:
the payload is split into chunks of `tpdu_size - 3` bytes and each chunk
becomes one DT; `eot` is set on chunk index `num_dts - 1` where
`num_dts = data.len().div_ceil(max_dt_data_size)`. -/
def send_data_frames (tpdu_size : Nat) (data : List Byte) : List DtTpdu :=
  let max_dt_data_size := tpdu_size - 3
  let num_dts := (data.length + max_dt_data_size - 1) / max_dt_data_size
  (chunksList max_dt_data_size data).enum.map fun ic =>
    DtTpdu.new (if ic.1 = num_dts - 1 then .eot else .noEot) ic.2

/-- `CotpConnection::send_data`, at the byte level: each DT is wrapped in a
TPKT and all TPKTs are concatenated into one write buffer. -/
def send_data_bytes (tpdu_size : Nat) (data : List Byte) : List Byte :=
  (send_data_frames tpdu_size data).foldl
    (fun buffer dt => buffer ++ (Tpkt.from_cotp (.Dt dt)).to_bytes) []

/-- `CotpConnection::receive_data`, on a stream of already-parsed DT TPDUs:
concatenate DT bodies until (and including) the first DT with `eot` set;
`none` if the stream is exhausted before an EOT arrives (the real loop would
keep blocking on the socket). -/
def receive_data_frames : List DtTpdu → Option (List Byte)
  | [] => none
  | dt :: rest =>
    if dt.eot = .eot then some dt.data
    else (receive_data_frames rest).map (dt.data ++ ·)

end Cotp61850

namespace Session61850

/-- Session layer errors (`enum SessionError` in `session.rs`), restricted
to the variants reachable from the functions modelled here, plus one
modelling marker: `panicIndexOutOfBounds` stands for a Rust direct-index
expression (`bytes[i]`) panicking, which the source does not surface as an
error value. -/
inductive SessionError where
  | MissingSessionRequirement
  | MissingProtocolOptions
  | MissingUserData
  | InvalidParameter (value : Byte)
  | InvalidSessionRequirement (value : Nat)
  | InvalidSpduType (value : Byte)
  | MessageTooShort
  | InvalidLength
  | InvalidDataSpdu
  | UnexpectedEndOfMessage
  | InvalidParameterLength
  | InvalidSelectorSize
  | InvalidVersion (value : Byte)
  | MissingRequiredParameters
  | NotEnoughBytes
  | panicIndexOutOfBounds
deriving DecidableEq, Repr

/-- Rust `bytes.get(i).context(e)?`: the byte at index `i`, or error `e`. -/
def getByteCtx (bytes : List Byte) (i : Nat) (e : SessionError) : Except SessionError Byte :=
  match bytes.get? i with
  | some b => .ok b
  | none => .error e

/-- Rust `bytes[i]` (a direct index that panics when out of bounds). -/
def indexByte (bytes : List Byte) (i : Nat) : Except SessionError Byte :=
  match bytes.get? i with
  | some b => .ok b
  | none => .error .panicIndexOutOfBounds

/-- Rust `bytes.get(a..b).context(NotEnoughBytes)?`: the sub-slice, or
`NotEnoughBytes` when the range does not lie inside the slice. -/
def sliceCtx (bytes : List Byte) (a b : Nat) : Except SessionError (List Byte) :=
  if a ≤ b ∧ b ≤ bytes.length then .ok ((bytes.drop a).take (b - a))
  else .error .NotEnoughBytes

/-- `enum SessionRequirement` (session functional-unit flag words). -/
inductive SessionRequirement where
  | HalfDuplex
  | Duplex
  | ExpeditedData
  | MinorSync
  | MajorSync
  | Resync
  | ActivityMgmt
  | NegotiatedRelease
deriving DecidableEq, Repr

/-- The `u16` discriminant of a `SessionRequirement`. -/
def SessionRequirement.toU16 : SessionRequirement → Nat
  | .HalfDuplex => 0x0001
  | .Duplex => 0x0002
  | .ExpeditedData => 0x0004
  | .MinorSync => 0x0008
  | .MajorSync => 0x0010
  | .Resync => 0x0020
  | .ActivityMgmt => 0x0080
  | .NegotiatedRelease => 0x0100

/-- `TryFrom<u16> for SessionRequirement`. -/
def SessionRequirement.tryFromU16 (value : Nat) : Except SessionError SessionRequirement :=
  if value = 0x0001 then .ok .HalfDuplex
  else if value = 0x0002 then .ok .Duplex
  else if value = 0x0004 then .ok .ExpeditedData
  else if value = 0x0008 then .ok .MinorSync
  else if value = 0x0010 then .ok .MajorSync
  else if value = 0x0020 then .ok .Resync
  else if value = 0x0080 then .ok .ActivityMgmt
  else if value = 0x0100 then .ok .NegotiatedRelease
  else .error (.InvalidSessionRequirement value)

/-- `struct SSelector` (session selector). -/
structure SSelector where
  value : List Byte
deriving DecidableEq, Repr

/-- `SSelector::from_bytes`: at most `MAX_SESSION_SELECTOR_SIZE = 16` bytes. -/
def SSelector.from_bytes (bytes : List Byte) : Except SessionError SSelector :=
  if bytes.length > 16 then .error .InvalidSelectorSize
  else .ok { value := bytes }

/-- `SSelector::to_bytes`: one length byte (`as u8`) then the value. -/
def SSelector.to_bytes (s : SSelector) : List Byte :=
  (s.value.length % 256) :: s.value

/-- `enum Pgi` (parameter group identifiers), via `From<u8>`. -/
inductive Pgi where
  | ConnectionIdentifier
  | ConnectAcceptItem
  | TransportDisconnect
  | SessionUserRequirements
  | EnclosureItem
  | Unknown49
  | CallingSessionSelector
  | CalledSessionSelector
  | DataOverflow
  | UserData
  | ExtendedUserData
  | Invalid
deriving DecidableEq, Repr

/-- `From<u8> for Pgi`. -/
def Pgi.fromByte (value : Byte) : Pgi :=
  if value = 0x01 then .ConnectionIdentifier
  else if value = 0x05 then .ConnectAcceptItem
  else if value = 0x11 then .TransportDisconnect
  else if value = 0x14 then .SessionUserRequirements
  else if value = 0x19 then .EnclosureItem
  else if value = 0x31 then .Unknown49
  else if value = 0x33 then .CallingSessionSelector
  else if value = 0x34 then .CalledSessionSelector
  else if value = 0x3C then .DataOverflow
  else if value = 0xC1 then .UserData
  else if value = 0xC2 then .ExtendedUserData
  else .Invalid

/-- `enum Pi` (parameter identifiers), via `From<u8>`. -/
inductive Pi where
  | ProtocolOptions
  | TsduMaximumSize
  | VersionNumber
  | InitialSerialNumber
  | TokenSettingItem
  | ReasonCode
  | SecondInitialSerialNumber
  | UpperLimitSerialNumber
  | LargeInitialSerialNumber
  | LargeSecondInitialSerialNumber
  | Invalid
deriving DecidableEq, Repr

/-- `From<u8> for Pi`. -/
def Pi.fromByte (value : Byte) : Pi :=
  if value = 0x13 then .ProtocolOptions
  else if value = 0x15 then .TsduMaximumSize
  else if value = 0x16 then .VersionNumber
  else if value = 0x17 then .InitialSerialNumber
  else if value = 0x1A then .TokenSettingItem
  else if value = 0x32 then .ReasonCode
  else if value = 0x37 then .SecondInitialSerialNumber
  else if value = 0x38 then .UpperLimitSerialNumber
  else if value = 0x39 then .LargeInitialSerialNumber
  else if value = 0x3A then .LargeSecondInitialSerialNumber
  else .Invalid

/-- `struct ConnectSpdu`. -/
structure ConnectSpdu where
  calling_session_selector : Option SSelector
  called_session_selector : Option SSelector
  session_requirement : SessionRequirement
  protocol_options : Byte
  data : List Byte
deriving DecidableEq, Repr

/-- `ConnectSpdu::new`: both selectors present, protocol options 0. -/
def ConnectSpdu.new (calling called : SSelector) (requirement : SessionRequirement)
    (data : List Byte) : ConnectSpdu :=
  { calling_session_selector := some calling
    called_session_selector := some called
    session_requirement := requirement
    protocol_options := 0
    data := data }

/-- `ConnectSpdu::encode_connect_accept_item`: PGI 5, length 6,
Protocol-Options (PI 0x13, length 1, `options`), Version-Number
(PI 0x16, length 1, value 2).  `to_bytes` calls this with literal 0. -/
def ConnectSpdu.encode_connect_accept_item (options : Byte) : List Byte :=
  [0x05, 6, 0x13, 1, options, 0x16, 1, 2]

/-- `ConnectSpdu::encode_session_requirement`: PGI 0x14, length 2,
the requirement's `u16` little-endian. -/
def ConnectSpdu.encode_session_requirement (c : ConnectSpdu) : List Byte :=
  [0x14, 2, c.session_requirement.toU16 % 256, c.session_requirement.toU16 / 256 % 256]

/-- `ConnectSpdu::encode_calling_session_selector`: when present, PGI 0x33
followed directly by `SSelector::to_bytes` (its one length byte and value). -/
def ConnectSpdu.encode_calling_session_selector (c : ConnectSpdu) : List Byte :=
  match c.calling_session_selector with
  | none => []
  | some s => 0x33 :: s.to_bytes

/-- `ConnectSpdu::encode_called_session_selector`: as calling, PGI 0x34. -/
def ConnectSpdu.encode_called_session_selector (c : ConnectSpdu) : List Byte :=
  match c.called_session_selector with
  | none => []
  | some s => 0x34 :: s.to_bytes

/-- `ConnectSpdu::to_bytes`: SI 0x0D, one LI byte, the parameter groups,
the User-Data header `{0xC1, data.len() as u8}`, then the payload.  The LI
is `(buffer.len() - length_offset - 1) + data.len()` narrowed `as u8`,
i.e. the byte count after the LI octet, modulo 256. -/
def ConnectSpdu.to_bytes (c : ConnectSpdu) : List Byte :=
  let body := ConnectSpdu.encode_connect_accept_item 0
    ++ c.encode_session_requirement
    ++ c.encode_calling_session_selector
    ++ c.encode_called_session_selector
    ++ [0xC1, c.data.length % 256]
  0x0D :: ((body.length + c.data.length) % 256) :: (body ++ c.data)

/-- The loop of `ConnectSpdu::parse_connect_accept_item`, carrying its
mutable state (`offset`, the two `has_*` flags, `protocol_options`). -/
def parse_connect_accept_item_loop (bytes : List Byte) (offset : Nat)
    (has_protocol_options has_protocol_version : Bool) (protocol_options : Byte) :
    Except SessionError Byte :=
  if hoff : offset < bytes.length then
    if offset + 1 ≥ bytes.length then .error .UnexpectedEndOfMessage
    else do
      let pi0 ← indexByte bytes offset
      let param_len ← indexByte bytes (offset + 1)
      match Pi.fromByte pi0 with
      | .ProtocolOptions =>
        if param_len ≠ 1 then .error .InvalidParameterLength
        else do
          let v ← indexByte bytes (offset + 2)
          parse_connect_accept_item_loop bytes (offset + 3) true has_protocol_version v
      | .VersionNumber =>
        if param_len ≠ 1 then .error .InvalidParameterLength
        else do
          let version ← indexByte bytes (offset + 2)
          if version ≠ 2 then .error (.InvalidVersion version)
          else
            parse_connect_accept_item_loop bytes (offset + 3) has_protocol_options true
              protocol_options
      | .Invalid => .error (.InvalidParameter 0xff)
      | _ =>
        parse_connect_accept_item_loop bytes (offset + 2 + param_len) has_protocol_options
          has_protocol_version protocol_options
  else if has_protocol_options ∧ has_protocol_version then .ok protocol_options
  else .error .MissingRequiredParameters
termination_by bytes.length - offset
decreasing_by all_goals omega

/-- `ConnectSpdu::parse_connect_accept_item`. -/
def parse_connect_accept_item (bytes : List Byte) : Except SessionError Byte :=
  parse_connect_accept_item_loop bytes 0 false false 0

/-- The accumulators of the `ConnectSpdu::from_bytes` loop. -/
structure ConnectParseState where
  called_session_selector : Option SSelector
  calling_session_selector : Option SSelector
  session_requirement : Option SessionRequirement
  protocol_options : Option Byte
  user_data : Option (List Byte)
deriving DecidableEq, Repr

/-- The `while offset < bytes.len()` loop of `ConnectSpdu::from_bytes`.
`Pgi::UserData` breaks out of the loop after capturing its slice; the
unknown/ignored PGIs are skipped by their parameter length. -/
def connect_from_bytes_loop (bytes : List Byte) (offset : Nat) (st : ConnectParseState) :
    Except SessionError ConnectParseState :=
  if hoff : offset < bytes.length then do
    let pgi0 ← getByteCtx bytes offset .UnexpectedEndOfMessage
    let param_len ← indexByte bytes (offset + 1)
    match Pgi.fromByte pgi0 with
    | .ConnectAcceptItem => do
      let slice ← sliceCtx bytes (offset + 2) (offset + 2 + param_len)
      let po ← parse_connect_accept_item slice
      connect_from_bytes_loop bytes (offset + 2 + param_len)
        { st with protocol_options := some po }
    | .SessionUserRequirements =>
      if param_len ≠ 2 then .error .InvalidParameterLength
      else do
        let b0 ← getByteCtx bytes (offset + 2) .NotEnoughBytes
        let b1 ← getByteCtx bytes (offset + 3) .NotEnoughBytes
        let req ← SessionRequirement.tryFromU16 (b0 + 256 * b1)
        connect_from_bytes_loop bytes (offset + 2 + param_len)
          { st with session_requirement := some req }
    | .CallingSessionSelector => do
      let slice ← sliceCtx bytes (offset + 2) (offset + 2 + param_len)
      let sel ← SSelector.from_bytes slice
      connect_from_bytes_loop bytes (offset + 2 + param_len)
        { st with calling_session_selector := some sel }
    | .CalledSessionSelector => do
      let slice ← sliceCtx bytes (offset + 2) (offset + 2 + param_len)
      let sel ← SSelector.from_bytes slice
      connect_from_bytes_loop bytes (offset + 2 + param_len)
        { st with called_session_selector := some sel }
    | .UserData => do
      let slice ← sliceCtx bytes (offset + 2) (offset + 2 + param_len)
      .ok { st with user_data := some slice }
    | _ => connect_from_bytes_loop bytes (offset + 2 + param_len) st
  else .ok st
termination_by bytes.length - offset
decreasing_by all_goals omega

/-- `ConnectSpdu::from_bytes`: run the parameter loop from offset 2, then
require session requirement, protocol options and user data, in that order. -/
def ConnectSpdu.from_bytes (bytes : List Byte) : Except SessionError ConnectSpdu := do
  let st ← connect_from_bytes_loop bytes 2
    { called_session_selector := none, calling_session_selector := none
      session_requirement := none, protocol_options := none, user_data := none }
  match st.session_requirement with
  | none => .error .MissingSessionRequirement
  | some req =>
    match st.protocol_options with
    | none => .error .MissingProtocolOptions
    | some po =>
      match st.user_data with
      | none => .error .MissingUserData
      | some d =>
        .ok { calling_session_selector := st.calling_session_selector
              called_session_selector := st.called_session_selector
              session_requirement := req
              protocol_options := po
              data := d }

/-- `struct AcceptSpdu`. -/
structure AcceptSpdu where
  called_session_selector : Option SSelector
  session_requirement : SessionRequirement
  protocol_options : Byte
  data : List Byte
deriving DecidableEq, Repr

/-- `AcceptSpdu::from_bytes`: delegates to `ConnectSpdu::from_bytes`. -/
def AcceptSpdu.from_bytes (bytes : List Byte) : Except SessionError AcceptSpdu :=
  (ConnectSpdu.from_bytes bytes).map fun c =>
    { called_session_selector := c.called_session_selector
      session_requirement := c.session_requirement
      protocol_options := c.protocol_options
      data := c.data }

/-- `struct DataSpdu` (the GIVE-TOKENS/DATA SPDU). -/
structure DataSpdu where
  data : List Byte
deriving DecidableEq, Repr

/-- `DataSpdu::new`. -/
def DataSpdu.new (data : List Byte) : DataSpdu := { data := data }

/-- `DataSpdu::to_bytes`: the fixed prelude `{SI=0x01, 0x00, PGI=0x01, 0x00}`
followed by the payload. -/
def DataSpdu.to_bytes (d : DataSpdu) : List Byte :=
  [0x01, 0x00, 0x01, 0x00] ++ d.data

/-- `DataSpdu::from_bytes`: inputs shorter than 4 bytes are
`MessageTooShort`; then `bytes[1]` must be 0, `bytes[2]` must be
`Pgi::ConnectionIdentifier = 0x01` and `bytes[3]` must be 0, else
`InvalidDataSpdu`.  The leading SPDU-type byte `bytes[0]` is never
inspected here (only `Spdu::from_bytes` dispatches on it). -/
def DataSpdu.from_bytes (bytes : List Byte) : Except SessionError DataSpdu :=
  match bytes with
  | _b0 :: b1 :: b2 :: b3 :: rest =>
    if b1 = 0 ∧ b2 = 0x01 ∧ b3 = 0 then .ok { data := rest }
    else .error .InvalidDataSpdu
  | _ => .error .MessageTooShort

/-- `struct FinishSpdu`. -/
structure FinishSpdu where
  data : List Byte
deriving DecidableEq, Repr

/-- The `FinishSpdu::parse_parameters` loop: scan `{PGI, len}` pairs;
`Pgi::UserData` takes the whole rest of the slice as data; everything
else is skipped; falling off the end leaves the data empty. -/
def finish_parse_parameters (bytes : List Byte) (offset : Nat) :
    Except SessionError (List Byte) :=
  if hoff : offset < bytes.length then
    if offset + 1 ≥ bytes.length then .error .UnexpectedEndOfMessage
    else do
      let pgi0 ← indexByte bytes offset
      let param_len ← indexByte bytes (offset + 1)
      match Pgi.fromByte pgi0 with
      | .UserData => .ok (bytes.drop (offset + 2))
      | _ => finish_parse_parameters bytes (offset + 2 + param_len)
  else .ok []
termination_by bytes.length - offset
decreasing_by all_goals omega

/-- `FinishSpdu::from_bytes`: parse the parameters of `bytes[2..]`. -/
def FinishSpdu.from_bytes (bytes : List Byte) : Except SessionError FinishSpdu :=
  (finish_parse_parameters (bytes.drop 2) 0).map fun d => { data := d }

/-- `struct DisconnectSpdu`. -/
structure DisconnectSpdu where
  user_data : List Byte
deriving DecidableEq, Repr

/-- `DisconnectSpdu::from_bytes`: delegates to `FinishSpdu::from_bytes`. -/
def DisconnectSpdu.from_bytes (bytes : List Byte) : Except SessionError DisconnectSpdu :=
  (FinishSpdu.from_bytes bytes).map fun f => { user_data := f.data }

/-- `struct AbortSpdu`. -/
structure AbortSpdu where
  user_data : List Byte
deriving DecidableEq, Repr

/-- `AbortSpdu::from_bytes`: at least 7 bytes, user data is `bytes[7..]`. -/
def AbortSpdu.from_bytes (bytes : List Byte) : Except SessionError AbortSpdu :=
  if bytes.length < 7 then .error .MessageTooShort
  else .ok { user_data := bytes.drop 7 }

/-- `struct RefuseSpdu`. -/
structure RefuseSpdu where
  reason_code : Byte
deriving DecidableEq, Repr

/-- `RefuseSpdu::from_bytes`: at least 10 bytes, reason code is `bytes[9]`
(the length guard makes the index safe, so `getD` is exact here). -/
def RefuseSpdu.from_bytes (bytes : List Byte) : Except SessionError RefuseSpdu :=
  if bytes.length < 10 then .error .MessageTooShort
  else .ok { reason_code := bytes.getD 9 0 }

/-- `enum SpduType`, via `From<u8>`. -/
inductive SpduType where
  | GiveTokenData
  | NotFinished
  | Finish
  | Disconnect
  | Refuse
  | Connect
  | Accept
  | Abort
  | Invalid
deriving DecidableEq, Repr

/-- `From<u8> for SpduType`. -/
def SpduType.fromByte (value : Byte) : SpduType :=
  if value = 0x01 then .GiveTokenData
  else if value = 0x08 then .NotFinished
  else if value = 0x09 then .Finish
  else if value = 0x0A then .Disconnect
  else if value = 0x0C then .Refuse
  else if value = 0x0D then .Connect
  else if value = 0x0E then .Accept
  else if value = 0x19 then .Abort
  else .Invalid

/-- `enum Spdu`. -/
inductive Spdu where
  | Connect (s : ConnectSpdu)
  | Accept (s : AcceptSpdu)
  | Data (s : DataSpdu)
  | Finish (s : FinishSpdu)
  | Disconnect (s : DisconnectSpdu)
  | Abort (s : AbortSpdu)
  | Refuse (s : RefuseSpdu)
  | NotFinished
deriving DecidableEq, Repr

/-- `Spdu::from_bytes`: read the LI at index 1, dispatch on the SPDU type at
index 0; CONNECT/ACCEPT/FINISH/DISCONNECT require `LI = bytes.len() - 2`
(`InvalidLength` otherwise) before their specific parser runs. -/
def Spdu.from_bytes (bytes : List Byte) : Except SessionError Spdu := do
  let length ← getByteCtx bytes 1 .NotEnoughBytes
  let first ← getByteCtx bytes 0 .NotEnoughBytes
  match SpduType.fromByte first with
  | .Connect =>
    if length ≠ bytes.length - 2 then .error .InvalidLength
    else (ConnectSpdu.from_bytes bytes).map .Connect
  | .Accept =>
    if length ≠ bytes.length - 2 then .error .InvalidLength
    else (AcceptSpdu.from_bytes bytes).map .Accept
  | .GiveTokenData => (DataSpdu.from_bytes bytes).map .Data
  | .Finish =>
    if length ≠ bytes.length - 2 then .error .InvalidLength
    else (FinishSpdu.from_bytes bytes).map .Finish
  | .Disconnect =>
    if length ≠ bytes.length - 2 then .error .InvalidLength
    else (DisconnectSpdu.from_bytes bytes).map .Disconnect
  | .Abort => (AbortSpdu.from_bytes bytes).map .Abort
  | .Refuse => (RefuseSpdu.from_bytes bytes).map .Refuse
  | .NotFinished => .ok .NotFinished
  | .Invalid => .error (.InvalidSpduType first)

/-- The CONNECT SPDU built by `Session::connect` with the configured
selectors and the upper-layer payload: `ConnectSpdu::new(local, remote,
Duplex, data)`. -/
def session_connect_spdu (local_s_sel remote_s_sel : SSelector) (data : List Byte) :
    ConnectSpdu :=
  ConnectSpdu.new local_s_sel remote_s_sel .Duplex data

end Session61850

namespace Mms61850

/-- `InitiateResponsePDUInitResponseDetail`, restricted to the field read
by `MmsClient::connect` (the negotiated parameter-CBB and service-support
bitmaps are carried along but never inspected there). -/
structure InitiateResponsePDUInitResponseDetail where
  negotiated_version_number : Int
deriving DecidableEq, Repr

/-- `InitiateResponsePDU` (the `IntegerN` newtypes are modelled as `Int`). -/
structure InitiateResponsePDU where
  local_detail_called : Option Int
  negotiated_max_serv_outstanding_calling : Int
  negotiated_max_serv_outstanding_called : Int
  negotiated_data_structure_nesting_level : Option Int
  init_response_detail : InitiateResponsePDUInitResponseDetail
deriving DecidableEq, Repr

/-- `enum MMSpdu`; the payloads of the variants other than
`initiate_ResponsePDU` are never inspected by the code modelled here, so
they are erased. -/
inductive MMSpdu where
  | confirmed_RequestPDU
  | confirmed_ResponsePDU
  | confirmed_ErrorPDU
  | unconfirmed_PDU
  | rejectPDU
  | initiate_RequestPDU
  | initiate_ResponsePDU (r : InitiateResponsePDU)
  | initiate_ErrorPDU
  | conclude_RequestPDU
deriving DecidableEq, Repr

/-- MMS client errors (`enum MmsClientError`), restricted to the variants
reachable from the functions modelled here. -/
inductive MmsClientError where
  | DataAccessError (error : Int)
  | UnexpectedServiceResponse
  | MinPduSizeExceeded
  | MaxServOutstandingCalledExceeded
  | MaxServOutstandingCallingExceeded
  | DataStructureNestingLevelExceeded
  | VersionMismatch
deriving DecidableEq, Repr

/-- The validation of the decoded Initiate response in `MmsClient::connect`
(lines after `ber::decode`): any PDU other than an Initiate-Response is
`UnexpectedServiceResponse`; then the five negotiated-parameter checks run
in source order (`VERSION_NUMBER = 1`, `MIN_PDU_SIZE = 64`). -/
def mms_connect_check (max_serv_outstanding_calling max_serv_outstanding_called
    data_structure_nesting_level : Int) (response : MMSpdu) :
    Except MmsClientError Unit :=
  match response with
  | .initiate_ResponsePDU r =>
    if r.init_response_detail.negotiated_version_number ≠ 1 then
      .error .VersionMismatch
    else if r.local_detail_called.any (fun size => size < 64) then
      .error .MinPduSizeExceeded
    else if r.negotiated_max_serv_outstanding_called > max_serv_outstanding_called then
      .error .MaxServOutstandingCalledExceeded
    else if r.negotiated_max_serv_outstanding_calling > max_serv_outstanding_calling then
      .error .MaxServOutstandingCallingExceeded
    else if r.negotiated_data_structure_nesting_level.any
        (fun level => level > data_structure_nesting_level) then
      .error .DataStructureNestingLevelExceeded
    else .ok ()
  | _ => .error .UnexpectedServiceResponse

/-- `enum AccessResult` from the generated MMS module; the decoded `Data`
payload is a type parameter because `MmsClient::read` never inspects it. -/
inductive AccessResult (α : Type) where
  | success (data : α)
  | failure (error : Int)
deriving DecidableEq, Repr

/-- The response processing of `MmsClient::read`: map each access result to
`Ok(data)` or the `DataAccessError`, and `collect` into a single `Result`,
which short-circuits at the first failure. -/
def read_collect_results {α : Type} : List (AccessResult α) →
    Except MmsClientError (List α)
  | [] => .ok []
  | .success d :: rest => (read_collect_results rest).map (fun l => d :: l)
  | .failure e :: _ => .error (.DataAccessError e)

/-- One GetNameList response page. -/
structure GetNameListResponse where
  list_of_identifier : List String
  more_follows : Bool
deriving DecidableEq, Repr

/-- The pagination loop of `MmsClient::get_name_list`, run against the
sequence of pages the server will answer with.  Returns the `continue_after`
value carried by each issued request together with the accumulated name
list (each iteration records the current `continue_after`, then replaces it
with `ids.last()` and appends the page's identifiers); `none` when the
server's pages run out while `more_follows` is still true (the real loop
would issue another request and block). -/
def get_name_list_run : List GetNameListResponse → Option String →
    Option (List (Option String) × List String)
  | [], _ => none
  | page :: rest, continue_after =>
    let next_continue_after := page.list_of_identifier.getLast?
    if page.more_follows then
      match get_name_list_run rest next_continue_after with
      | none => none
      | some (requests, names) =>
        some (continue_after :: requests, page.list_of_identifier ++ names)
    else some ([continue_after], page.list_of_identifier)

/-- `DirectoryEntry`: only the `file_name` field is read by the pagination
loop, and its type is opaque to it. -/
structure DirectoryEntry (α : Type) where
  file_name : α
deriving DecidableEq, Repr

/-- One FileDirectory response page. -/
structure FileDirectoryResponse (α : Type) where
  list_of_directory_entry : List (DirectoryEntry α)
  more_follows : Bool
deriving DecidableEq, Repr

/-- The pagination loop of `MmsClient::file_directory`, exactly as
`get_name_list_run` but continuing after the last entry's `file_name`. -/
def file_directory_run {α : Type} : List (FileDirectoryResponse α) → Option α →
    Option (List (Option α) × List (DirectoryEntry α))
  | [], _ => none
  | page :: rest, continue_after =>
    let next_continue_after :=
      (page.list_of_directory_entry.getLast?).map (fun entry => entry.file_name)
    if page.more_follows then
      match file_directory_run rest next_continue_after with
      | none => none
      | some (requests, entries) =>
        some (continue_after :: requests, page.list_of_directory_entry ++ entries)
    else some ([continue_after], page.list_of_directory_entry)

/-- The events the dispatcher loop (`ConnectionHandler::handle_connection`)
can observe in one `select!` round: either a queued request (the ghost
`waiter` number stands for its oneshot completion sender, and `send_ok`
records whether `prepare_request` + `send_data` succeeded) or a decoded
incoming MMS PDU. -/
inductive DispatcherEvent where
  | request (waiter : Nat) (send_ok : Bool)
  | confirmedResponse (invoke_id : Nat) (service : Nat)
  | confirmedError (invoke_id : Nat)
  | reject (original_invoke_id : Option Nat)
  | unconfirmedReport
  | otherIncoming
deriving DecidableEq, Repr

/-- `HashMap::insert`: bind `k` to `v`, replacing any previous binding. -/
def mapInsert (m : List (Nat × Nat)) (k v : Nat) : List (Nat × Nat) :=
  (k, v) :: m.filter (fun p => p.1 ≠ k)

/-- Map lookup (the read half of `HashMap::remove`). -/
def mapLookup (m : List (Nat × Nat)) (k : Nat) : Option Nat :=
  (m.find? (fun p => p.1 = k)).map Prod.snd

/-- The erase half of `HashMap::remove`. -/
def mapRemove (m : List (Nat × Nat)) (k : Nat) : List (Nat × Nat) :=
  m.filter (fun p => p.1 ≠ k)

/-- The dispatcher state: the `invoke_id` counter (a `u32`, hence the
explicit wrap at `2^32`), the `response_map`, and two ghost logs that
record the observable actions of `handle_connection`: `sent` lists each
successfully transmitted request as `(invoke id, waiter)`, and `completed`
lists each delivered response as `(waiter, service)`. -/
structure DispatcherState where
  invoke_id : Nat
  response_map : List (Nat × Nat)
  sent : List (Nat × Nat)
  completed : List (Nat × Nat)
deriving DecidableEq, Repr

/-- The initial dispatcher state (`invoke_id = 0`, empty map). -/
def dispatcher_init : DispatcherState :=
  { invoke_id := 0, response_map := [], sent := [], completed := [] }

/-- One iteration of the `handle_connection` loop:
a queued request that sends successfully is inserted into the map under the
current invoke id, which is then incremented (`u32` wrap); a failed send
leaves the state unchanged (the completion is dropped).  A
Confirmed-Response removes the matching waiter and completes it with the
inner service response, or is dropped when no waiter is registered.  A
Confirmed-Error, or a Reject carrying an original invoke id, drops the
matching entry; reports and the remaining PDU kinds leave the state
unchanged. -/
def dispatcher_step (s : DispatcherState) (e : DispatcherEvent) : DispatcherState :=
  match e with
  | .request waiter send_ok =>
    if send_ok then
      { s with response_map := mapInsert s.response_map s.invoke_id waiter
               sent := s.sent ++ [(s.invoke_id, waiter)]
               invoke_id := (s.invoke_id + 1) % 2 ^ 32 }
    else s
  | .confirmedResponse invoke_id service =>
    match mapLookup s.response_map invoke_id with
    | some waiter =>
      { s with response_map := mapRemove s.response_map invoke_id
               completed := s.completed ++ [(waiter, service)] }
    | none => s
  | .confirmedError invoke_id =>
    { s with response_map := mapRemove s.response_map invoke_id }
  | .reject (some invoke_id) =>
    { s with response_map := mapRemove s.response_map invoke_id }
  | .reject none => s
  | .unconfirmedReport => s
  | .otherIncoming => s

/-- The dispatcher loop over a whole event sequence. -/
def dispatcher_run (events : List DispatcherEvent) : DispatcherState :=
  events.foldl dispatcher_step dispatcher_init

/-- The number of successfully sent requests in an event sequence. -/
def count_sent_requests (events : List DispatcherEvent) : Nat :=
  (events.filter (fun e =>
    match e with
    | .request _ true => true
    | _ => false)).length

end Mms61850

/-! ## Helper lemmas -/

namespace Cotp61850

theorem foldl_append_eq_flatten {α : Type} (g : α → List Byte) :
    ∀ (l : List α) (acc : List Byte),
      l.foldl (fun buffer x => buffer ++ g x) acc = acc ++ (l.map g).flatten
  | [], acc => by simp
  | x :: l, acc => by
    simp [foldl_append_eq_flatten g l]

theorem chunksList_join_of_le (n : Nat) (hn : 0 < n) :
    ∀ (k : Nat) (l : List Byte), l.length ≤ k → (chunksList n l).flatten = l := by
  intro k
  induction k with
  | zero =>
    intro l hl
    have : l = [] := by
      cases l with
      | nil => rfl
      | cons x xs => simp at hl
    subst this
    rw [chunksList]
    simp
  | succ k ih =>
    intro l hl
    rw [chunksList]
    by_cases h1 : l = []
    · simp [h1]
    · simp only [h1, dif_neg, not_false_iff]
      have h2 : ¬ n = 0 := by omega
      simp only [h2, dif_neg, not_false_iff]
      have hlen : 0 < l.length := List.length_pos.mpr h1
      have : (l.drop n).length ≤ k := by
        simp only [List.length_drop]
        omega
      simp [ih (l.drop n) this]

theorem chunksList_join (n : Nat) (hn : 0 < n) (l : List Byte) :
    (chunksList n l).flatten = l :=
  chunksList_join_of_le n hn l.length l (Nat.le_refl _)

theorem chunksList_sizes_of_le (n : Nat) (hn : 0 < n) :
    ∀ (k : Nat) (l : List Byte), l.length ≤ k →
      ∀ c ∈ chunksList n l, c.length ≤ n := by
  intro k
  induction k with
  | zero =>
    intro l hl c hc
    have : l = [] := by
      cases l with
      | nil => rfl
      | cons x xs => simp at hl
    subst this
    rw [chunksList] at hc
    simp at hc
  | succ k ih =>
    intro l hl c hc
    rw [chunksList] at hc
    by_cases h1 : l = []
    · simp [h1] at hc
    · simp only [h1, dif_neg, not_false_iff] at hc
      have h2 : ¬ n = 0 := by omega
      simp only [h2, dif_neg, not_false_iff, List.mem_cons] at hc
      rcases hc with hc | hc
      · subst hc
        simp [List.length_take_le n l]
      · have hlen : 0 < l.length := List.length_pos.mpr h1
        have hk : (l.drop n).length ≤ k := by
          simp only [List.length_drop]
          omega
        exact ih (l.drop n) hk c hc

theorem chunksList_sizes (n : Nat) (hn : 0 < n) (l : List Byte) :
    ∀ c ∈ chunksList n l, c.length ≤ n :=
  chunksList_sizes_of_le n hn l.length l (Nat.le_refl _)

theorem chunksList_length_of_le (n : Nat) (hn : 0 < n) :
    ∀ (k : Nat) (l : List Byte), l.length ≤ k →
      (chunksList n l).length = (l.length + n - 1) / n := by
  intro k
  induction k with
  | zero =>
    intro l hl
    have : l = [] := by
      cases l with
      | nil => rfl
      | cons x xs => simp at hl
    subst this
    rw [chunksList]
    simp [Nat.div_eq_of_lt (show n - 1 < n by omega)]
  | succ k ih =>
    intro l hl
    rw [chunksList]
    by_cases h1 : l = []
    · simp [h1, Nat.div_eq_of_lt (show n - 1 < n by omega)]
    · simp only [h1, dif_neg, not_false_iff]
      have h2 : ¬ n = 0 := by omega
      simp only [h2, dif_neg, not_false_iff, List.length_cons]
      have hlen : 0 < l.length := List.length_pos.mpr h1
      have hk : (l.drop n).length ≤ k := by
        simp only [List.length_drop]
        omega
      rw [ih (l.drop n) hk]
      simp only [List.length_drop]
      by_cases h3 : l.length ≤ n
      · have hz : l.length - n = 0 := by omega
        rw [hz]
        have left : (0 + n - 1) / n = 0 := by
          rw [Nat.div_eq_of_lt (by omega)]
        have right : (l.length + n - 1) / n = 1 :=
          Nat.div_eq_of_lt_le (by omega) (by omega)
        omega
      · have hsub : l.length - n + n - 1 = l.length - 1 := by omega
        have hadd : l.length + n - 1 = l.length - 1 + n := by omega
        rw [hsub, hadd, Nat.add_div_right _ hn]

theorem chunksList_length (n : Nat) (hn : 0 < n) (l : List Byte) :
    (chunksList n l).length = (l.length + n - 1) / n :=
  chunksList_length_of_le n hn l.length l (Nat.le_refl _)

theorem chunksList_ne_nil (n : Nat) (hn : 0 < n) (l : List Byte) (hl : l ≠ []) :
    chunksList n l ≠ [] := by
  rw [chunksList]
  simp [hl, show ¬ n = 0 by omega]

theorem enumFrom_map_mark_last :
    ∀ (l : List (List Byte)) (j T : Nat), l ≠ [] → T = j + l.length - 1 →
      (List.enumFrom j l).map (fun ic => if ic.1 = T then Eot.eot else Eot.noEot)
        = List.replicate (l.length - 1) Eot.noEot ++ [Eot.eot]
  | [], _, _, h, _ => absurd rfl h
  | [x], j, T, _, hT => by
    simp only [List.length_cons, List.length_nil] at hT
    simp [List.enumFrom, hT]
  | x :: y :: tl, j, T, _, hT => by
    have hT2 : T = (j + 1) + (y :: tl).length - 1 := by
      simp only [List.length_cons] at hT ⊢
      omega
    have ih := enumFrom_map_mark_last (y :: tl) (j + 1) T (by simp) hT2
    have hj : ¬ (j = T) := by
      simp only [List.length_cons] at hT
      omega
    simp only [List.enumFrom, List.map_cons] at ih ⊢
    rw [if_neg hj, ih]
    simp [List.replicate_succ]

theorem send_data_frames_map_data (tpdu_size : Nat) (data : List Byte) :
    (send_data_frames tpdu_size data).map DtTpdu.data
      = chunksList (tpdu_size - 3) data := by
  simp only [send_data_frames, List.map_map]
  have : (DtTpdu.data ∘ fun ic : Nat × List Byte =>
      DtTpdu.new (if ic.1 = (data.length + (tpdu_size - 3) - 1) / (tpdu_size - 3) - 1
        then Eot.eot else Eot.noEot) ic.2) = Prod.snd := by
    funext ic
    rfl
  rw [this, List.enum_map_snd]

theorem send_data_frames_map_eot (tpdu_size : Nat) (data : List Byte)
    (hd : data ≠ []) (hn : 0 < tpdu_size - 3) :
    (send_data_frames tpdu_size data).map DtTpdu.eot
      = List.replicate ((chunksList (tpdu_size - 3) data).length - 1) Eot.noEot
        ++ [Eot.eot] := by
  simp only [send_data_frames, List.map_map]
  have heq : (DtTpdu.eot ∘ fun ic : Nat × List Byte =>
      DtTpdu.new (if ic.1 = (data.length + (tpdu_size - 3) - 1) / (tpdu_size - 3) - 1
        then Eot.eot else Eot.noEot) ic.2)
      = fun ic : Nat × List Byte =>
        if ic.1 = (data.length + (tpdu_size - 3) - 1) / (tpdu_size - 3) - 1
          then Eot.eot else Eot.noEot := by
    funext ic
    by_cases h : ic.1 = (data.length + (tpdu_size - 3) - 1) / (tpdu_size - 3) - 1 <;>
      simp [h, DtTpdu.new]
  rw [heq, List.enum]
  exact enumFrom_map_mark_last (chunksList (tpdu_size - 3) data) 0
    ((data.length + (tpdu_size - 3) - 1) / (tpdu_size - 3) - 1)
    (chunksList_ne_nil _ hn data hd)
    (by rw [chunksList_length _ hn]; omega)

theorem send_data_frames_length (tpdu_size : Nat) (data : List Byte) :
    (send_data_frames tpdu_size data).length
      = (chunksList (tpdu_size - 3) data).length := by
  simp [send_data_frames]

theorem receive_data_frames_marked : ∀ (fs : List DtTpdu),
    fs.map DtTpdu.eot = List.replicate (fs.length - 1) Eot.noEot ++ [Eot.eot] →
    receive_data_frames fs = some ((fs.map DtTpdu.data).flatten)
  | [], h => by simp at h
  | [f], h => by
    simp only [List.map_cons, List.map_nil, List.length_cons, List.length_nil,
      Nat.sub_self, List.replicate, List.nil_append] at h
    have : f.eot = Eot.eot := by
      injection h
    simp [receive_data_frames, this]
  | f :: g :: tl, h => by
    simp only [List.map_cons, List.length_cons, Nat.add_sub_cancel,
      List.replicate_succ, List.cons_append, List.cons.injEq] at h
    have h2 : (g :: tl).map DtTpdu.eot
        = List.replicate ((g :: tl).length - 1) Eot.noEot ++ [Eot.eot] := by
      simp only [List.map_cons, List.length_cons, Nat.add_sub_cancel]
      exact h.2
    have ih := receive_data_frames_marked (g :: tl) h2
    rw [receive_data_frames]
    simp [h.1, ih]

end Cotp61850

/-! ## Claim theorems: COTP layer -/

namespace Cotp61850

/-- C3 (amended to nonempty payloads): for every nonempty payload and every
TPDU size in [128, 8192], `send_data` splits the payload into chunks of at
most `tpdu_size - 3` bytes, one DT TPDU per chunk inside a TPKT; exactly
the last DT carries end-of-transmission; and reassembling the DT bodies in
order until EOT (as `receive_data` does) yields exactly the payload. -/
theorem cotp_send_data_segmentation_reassembly (tpdu_size : Nat) (data : List Byte)
    (hdata : data ≠ []) (hlo : 128 ≤ tpdu_size) (hhi : tpdu_size ≤ 8192) :
    (∀ dt ∈ send_data_frames tpdu_size data, dt.data.length ≤ tpdu_size - 3) ∧
    (send_data_frames tpdu_size data).map DtTpdu.eot
      = List.replicate ((send_data_frames tpdu_size data).length - 1) Eot.noEot
        ++ [Eot.eot] ∧
    receive_data_frames (send_data_frames tpdu_size data) = some data ∧
    send_data_bytes tpdu_size data
      = ((send_data_frames tpdu_size data).map
          (fun dt => (Tpkt.from_cotp (.Dt dt)).to_bytes)).flatten := by
  have hn : 0 < tpdu_size - 3 := by omega
  refine ⟨?_, ?_, ?_, ?_⟩
  · intro dt hdt
    have hmem : dt.data ∈ (send_data_frames tpdu_size data).map DtTpdu.data :=
      List.mem_map_of_mem _ hdt
    rw [send_data_frames_map_data] at hmem
    exact chunksList_sizes _ hn data dt.data hmem
  · rw [send_data_frames_map_eot _ _ hdata hn, send_data_frames_length]
  · have hmark : (send_data_frames tpdu_size data).map DtTpdu.eot
        = List.replicate ((send_data_frames tpdu_size data).length - 1) Eot.noEot
          ++ [Eot.eot] := by
      rw [send_data_frames_map_eot _ _ hdata hn, send_data_frames_length]
    rw [receive_data_frames_marked _ hmark, send_data_frames_map_data,
      chunksList_join _ hn]
  · simp [send_data_bytes, foldl_append_eq_flatten]

/-- C3 counterexample: the claim quantifies over every payload, but on the
empty payload `send_data` emits no DT at all, so no DT carries EOT and
reassembly cannot recover the payload. -/
theorem cotp_send_data_empty_payload_counterexample :
    send_data_frames 128 [] = [] ∧
    receive_data_frames (send_data_frames 128 []) = none := by
  constructor
  · simp [send_data_frames, chunksList]
  · simp [send_data_frames, chunksList, receive_data_frames]

/-- C3 witness: the amended theorem applied to the payload `[1, 2, 3]`
with TPDU size 128. -/
theorem cotp_send_data_segmentation_reassembly_witness :
    (([1, 2, 3] : List Byte) ≠ [] ∧ 128 ≤ 128 ∧ 128 ≤ 8192) ∧
    ((∀ dt ∈ send_data_frames 128 [1, 2, 3], dt.data.length ≤ 128 - 3) ∧
    (send_data_frames 128 [1, 2, 3]).map DtTpdu.eot
      = List.replicate ((send_data_frames 128 [1, 2, 3]).length - 1) Eot.noEot
        ++ [Eot.eot] ∧
    receive_data_frames (send_data_frames 128 [1, 2, 3]) = some [1, 2, 3] ∧
    send_data_bytes 128 [1, 2, 3]
      = ((send_data_frames 128 [1, 2, 3]).map
          (fun dt => (Tpkt.from_cotp (.Dt dt)).to_bytes)).flatten) :=
  ⟨⟨by decide, by decide, by decide⟩,
    cotp_send_data_segmentation_reassembly 128 [1, 2, 3] (by decide) (by decide)
      (by decide)⟩

/-- C4 (code bug): `request_connection` accepts a CC echoing `dst_ref = 1`
but hard-codes the connection's `tpdu_size` to 8192 even when the CC
carries a TPDU-size option (here with value octet 0x0B, i.e. 2048); the
option is parsed but never applied, against the spec's negotiation rule. -/
theorem cotp_cc_tpdu_size_option_ignored :
    request_connection_handle_reply
        (.Cc ⟨9, 1, 0, [.TpduSize { value := 0x0B }]⟩) = .ok 8192 ∧
    (8192 : Nat) ≠ 0x0B ∧ (8192 : Nat) ≠ 2 ^ 0x0B := by
  refine ⟨rfl, by decide, by decide⟩

/-- C5 (code bug): the CR TPDU actually sent by `request_connection` with
both transport selectors `{0x00, 0x01}`: the TPDU-size option value octet
is `8192 as u8 = 0x00`, not the exponent `0x0D` the spec requires, so the
emitted bytes differ from the specified golden vector at that octet. -/
theorem cotp_cr_request_encoding_actual :
    request_connection_bytes [0x00, 0x01] [0x00, 0x01]
      = [0x03, 0x00, 0x00, 0x16,
         0x11, 0xE0, 0x00, 0x00, 0x00, 0x01, 0x00,
         0xC0, 0x01, 0x00,
         0xC2, 0x02, 0x00, 0x01,
         0xC1, 0x02, 0x00, 0x01] ∧
    request_connection_bytes [0x00, 0x01] [0x00, 0x01]
      ≠ [0x03, 0x00, 0x00, 0x16,
         0x11, 0xE0, 0x00, 0x00, 0x00, 0x01, 0x00,
         0xC0, 0x01, 0x0D,
         0xC2, 0x02, 0x00, 0x01,
         0xC1, 0x02, 0x00, 0x01] := by
  constructor
  · rfl
  · decide

end Cotp61850

/-! ## Claim theorems: Session layer -/

namespace Session61850

/-- C6 counterexample: `[0x00, 0x00, 0x01, 0x00]` differs from the DATA
prelude in its first byte, yet `DataSpdu::from_bytes` accepts it — the
SPDU-type byte at index 0 is never inspected by this parser. -/
theorem data_spdu_first_byte_not_checked :
    DataSpdu.from_bytes [0x00, 0x00, 0x01, 0x00] = .ok { data := [] } ∧
    [0x00, 0x00, 0x01, 0x00] ≠ [0x01, 0x00, 0x01, 0x00] ++ ([] : List Byte) :=
  ⟨rfl, by decide⟩

/-- C6 (amended): the DATA SPDU encoding is exactly the prelude
`{0x01, 0x00, 0x01, 0x00}` followed by the payload and parsing recovers the
payload; inputs shorter than 4 bytes fail with `MessageTooShort` and inputs
whose bytes at positions 1..3 differ from `{0x00, 0x01, 0x00}` fail with
`InvalidDataSpdu` — but the SPDU-type byte at position 0 is not validated
by `DataSpdu::from_bytes` itself (only the `Spdu::from_bytes` dispatcher
selects on it). -/
theorem data_spdu_wrapping :
    (∀ b : List Byte, (DataSpdu.new b).to_bytes = [0x01, 0x00, 0x01, 0x00] ++ b) ∧
    (∀ b : List Byte,
      DataSpdu.from_bytes ((DataSpdu.new b).to_bytes) = .ok (DataSpdu.new b)) ∧
    (∀ input : List Byte, input.length < 4 →
      DataSpdu.from_bytes input = .error .MessageTooShort) ∧
    (∀ (b0 b1 b2 b3 : Byte) (rest : List Byte), ¬ (b1 = 0 ∧ b2 = 0x01 ∧ b3 = 0) →
      DataSpdu.from_bytes (b0 :: b1 :: b2 :: b3 :: rest)
        = .error .InvalidDataSpdu) := by
  refine ⟨fun b => rfl, fun b => rfl, ?_, ?_⟩
  · intro input h
    match input with
    | [] => rfl
    | [_] => rfl
    | [_, _] => rfl
    | [_, _, _] => rfl
    | _ :: _ :: _ :: _ :: _ => simp at h; omega
  · intro b0 b1 b2 b3 rest h
    simp [DataSpdu.from_bytes, h]

/-- C6 witness: the amended theorem applied at payload `[0xAB]`, at the
short input `[0x01, 0x00]` and at the invalid prelude `[0x01, 9, 0x01, 0x00, 5]`. -/
theorem data_spdu_wrapping_witness :
    ((DataSpdu.new [0xAB]).to_bytes = [0x01, 0x00, 0x01, 0x00] ++ [0xAB]) ∧
    (DataSpdu.from_bytes ((DataSpdu.new [0xAB]).to_bytes) = .ok (DataSpdu.new [0xAB])) ∧
    (([0x01, 0x00] : List Byte).length < 4 ∧
      DataSpdu.from_bytes [0x01, 0x00] = .error .MessageTooShort) ∧
    (¬ ((9 : Byte) = 0 ∧ (0x01 : Byte) = 0x01 ∧ (0 : Byte) = 0) ∧
      DataSpdu.from_bytes [0x01, 9, 0x01, 0x00, 5] = .error .InvalidDataSpdu) :=
  ⟨data_spdu_wrapping.1 [0xAB], data_spdu_wrapping.2.1 [0xAB],
    ⟨by decide, data_spdu_wrapping.2.2.1 [0x01, 0x00] (by decide)⟩,
    ⟨by decide, data_spdu_wrapping.2.2.2 0x01 9 0x01 0x00 [5] (by decide)⟩⟩

/-- The CONNECT SPDU built by `Session::connect` with both selectors
`{0x00, 0x01}`, encoded: LI is `(22 + |U|) mod 256` and the selector
parameter groups carry the selector's own length byte directly after the
PGI octet. -/
theorem session_connect_to_bytes (U : List Byte) :
    (session_connect_spdu ⟨[0x00, 0x01]⟩ ⟨[0x00, 0x01]⟩ U).to_bytes
      = [0x0D, (22 + U.length) % 256, 0x05, 0x06, 0x13, 0x01, 0x00, 0x16, 0x01, 0x02,
         0x14, 0x02, 0x02, 0x00, 0x33, 0x02, 0x00, 0x01, 0x34, 0x02, 0x00, 0x01,
         0xC1, U.length % 256] ++ U := by
  simp [session_connect_spdu, ConnectSpdu.new, ConnectSpdu.to_bytes,
    ConnectSpdu.encode_connect_accept_item, ConnectSpdu.encode_session_requirement,
    ConnectSpdu.encode_calling_session_selector, ConnectSpdu.encode_called_session_selector,
    SSelector.to_bytes, SessionRequirement.toU16]

/-- C7 counterexample: with user data `[0xAA]` the encoding is the 25-byte
vector below; the claimed calling-selector group `{0x33, 0x03, 0x02, 0x00,
0x01}` would require an octet `0x03` somewhere in the encoding, but the
encoding contains no `0x03` at all (the selector groups are emitted as
`{0x33, 0x02, 0x00, 0x01}` / `{0x34, 0x02, 0x00, 0x01}`). -/
theorem connect_spdu_encoding_counterexample :
    (session_connect_spdu ⟨[0x00, 0x01]⟩ ⟨[0x00, 0x01]⟩ [0xAA]).to_bytes
      = [0x0D, 0x17, 0x05, 0x06, 0x13, 0x01, 0x00, 0x16, 0x01, 0x02,
         0x14, 0x02, 0x02, 0x00, 0x33, 0x02, 0x00, 0x01, 0x34, 0x02, 0x00, 0x01,
         0xC1, 0x01, 0xAA] ∧
    ¬ (0x03 ∈ (session_connect_spdu ⟨[0x00, 0x01]⟩ ⟨[0x00, 0x01]⟩ [0xAA]).to_bytes) := by
  decide

/-- C7 (amended): the CONNECT SPDU built by `Session::connect` with both
selectors `{0x00, 0x01}` and user data `U` encodes as SI `0x0D`, then the
LI byte, then the Connect-Accept-Item `{0x05, 0x06, 0x13, 0x01, 0x00,
0x16, 0x01, 0x02}`, the duplex session requirements `{0x14, 0x02, 0x02,
0x00}`, the calling selector group `{0x33, 0x02, 0x00, 0x01}`, the called
selector group `{0x34, 0x02, 0x00, 0x01}` (PGI octet followed directly by
the selector's length byte and value — no separate parameter-group length
octet) and `{0xC1, |U| mod 256}` followed by `U`, in that order. -/
theorem connect_spdu_encoding (U : List Byte) :
    (session_connect_spdu ⟨[0x00, 0x01]⟩ ⟨[0x00, 0x01]⟩ U).to_bytes
      = [0x0D, (22 + U.length) % 256]
        ++ [0x05, 0x06, 0x13, 0x01, 0x00, 0x16, 0x01, 0x02]
        ++ [0x14, 0x02, 0x02, 0x00]
        ++ [0x33, 0x02, 0x00, 0x01]
        ++ [0x34, 0x02, 0x00, 0x01]
        ++ [0xC1, U.length % 256]
        ++ U := by
  rw [session_connect_to_bytes]
  rfl

end Session61850

namespace Session61850

/-- The Connect-Accept-Item emitted by `ConnectSpdu::to_bytes` parses back
to protocol options 0. -/
theorem cai_parse_ok : parse_connect_accept_item [0x13, 1, 0, 0x16, 1, 2] = .ok 0 := by
  rw [parse_connect_accept_item, parse_connect_accept_item_loop]
  norm_num [indexByte, Pi.fromByte, Bind.bind, Except.bind]
  rw [parse_connect_accept_item_loop]
  norm_num [indexByte, Pi.fromByte, Bind.bind, Except.bind]
  rw [parse_connect_accept_item_loop]
  norm_num

/-- When the whole CONNECT SPDU fits its one LI byte (user data of at most
233 bytes with the 2-byte selectors), `Spdu::from_bytes` parses the
encoding back to a structurally equal `ConnectSpdu`. -/
theorem session_connect_roundtrip_ok (U : List Byte) (h : U.length ≤ 233) :
    Spdu.from_bytes ((session_connect_spdu ⟨[0x00, 0x01]⟩ ⟨[0x00, 0x01]⟩ U).to_bytes)
      = .ok (.Connect (session_connect_spdu ⟨[0x00, 0x01]⟩ ⟨[0x00, 0x01]⟩ U)) := by
  have hli : (22 + U.length) % 256 = 22 + U.length := Nat.mod_eq_of_lt (by omega)
  have hul : U.length % 256 = U.length := Nat.mod_eq_of_lt (by omega)
  rw [session_connect_to_bytes, hli, hul]
  rw [Spdu.from_bytes]
  simp only [getByteCtx, Bind.bind, Except.bind]
  norm_num [SpduType.fromByte]
  have hcond : 22 + U.length =
      U.length + 1 + 1 + 1 + 1 + 1 + 1 + 1 + 1 + 1 + 1 + 1 + 1 + 1 + 1 + 1 + 1 + 1 + 1
        + 1 + 1 + 1 + 1 + 1 + 1 - 2 := by omega
  rw [if_pos hcond]
  rw [ConnectSpdu.from_bytes]
  rw [connect_from_bytes_loop]
  norm_num [getByteCtx, indexByte, Pgi.fromByte, sliceCtx, Bind.bind, Except.bind,
    cai_parse_ok]
  rw [connect_from_bytes_loop]
  norm_num [getByteCtx, indexByte, Pgi.fromByte, sliceCtx, Bind.bind, Except.bind,
    SessionRequirement.tryFromU16]
  rw [connect_from_bytes_loop]
  norm_num [getByteCtx, indexByte, Pgi.fromByte, sliceCtx, Bind.bind, Except.bind,
    SSelector.from_bytes]
  rw [connect_from_bytes_loop]
  norm_num [getByteCtx, indexByte, Pgi.fromByte, sliceCtx, Bind.bind, Except.bind,
    SSelector.from_bytes]
  rw [connect_from_bytes_loop]
  norm_num [getByteCtx, indexByte, Pgi.fromByte, sliceCtx, Bind.bind, Except.bind,
    List.take_length]
  have hcond2 : 24 + U.length ≤
      U.length + 1 + 1 + 1 + 1 + 1 + 1 + 1 + 1 + 1 + 1 + 1 + 1 + 1 + 1 + 1 + 1 + 1 + 1
        + 1 + 1 + 1 + 1 + 1 + 1 := by omega
  rw [if_pos hcond2]
  norm_num [session_connect_spdu, ConnectSpdu.new]
  rfl

/-- When the SPDU body exceeds one LI byte (user data of 234 bytes or
more), the wrapped LI no longer matches `bytes.len() - 2` and
`Spdu::from_bytes` rejects the frame with `InvalidLength`. -/
theorem session_connect_roundtrip_reject (U : List Byte) (h : 234 ≤ U.length) :
    Spdu.from_bytes ((session_connect_spdu ⟨[0x00, 0x01]⟩ ⟨[0x00, 0x01]⟩ U).to_bytes)
      = .error .InvalidLength := by
  rw [session_connect_to_bytes]
  rw [Spdu.from_bytes]
  simp only [getByteCtx, Bind.bind, Except.bind]
  norm_num [SpduType.fromByte]
  have hcond : ¬ ((22 + U.length) % 256 =
      U.length + 1 + 1 + 1 + 1 + 1 + 1 + 1 + 1 + 1 + 1 + 1 + 1 + 1 + 1 + 1 + 1 + 1 + 1
        + 1 + 1 + 1 + 1 + 1 + 1 - 2) := by
    have := Nat.mod_lt (22 + U.length) (show 0 < 256 by norm_num)
    omega
  intro hx
  exact absurd hx hcond

end Session61850



namespace Session61850

/-- C10: `ConnectSpdu::to_bytes` emits the LI byte and the User-Data
parameter length as `as u8` truncations — the LI octet equals the true
byte count after it modulo 256, and the User-Data group carries
`|data| mod 256` — so the encode/parse round-trip through
`Spdu::from_bytes` holds exactly while the body fits one length byte
(user data up to 233 bytes with the 2-byte session selectors), and any
larger payload produces a frame whose LI cannot match `bytes.len() - 2`,
which `Spdu::from_bytes` rejects with `InvalidLength`. -/
theorem connect_spdu_length_truncation :
    (∀ c : ConnectSpdu,
      (c.to_bytes).get? 1 = some (((c.to_bytes).length - 2) % 256)) ∧
    (∀ c : ConnectSpdu, ∃ groups : List Byte,
      c.to_bytes = 0x0D :: ((groups.length + 2 + c.data.length) % 256) :: (groups
        ++ [0xC1, c.data.length % 256] ++ c.data)) ∧
    (∀ U : List Byte, U.length ≤ 233 →
      Spdu.from_bytes ((session_connect_spdu ⟨[0x00, 0x01]⟩ ⟨[0x00, 0x01]⟩ U).to_bytes)
        = .ok (.Connect (session_connect_spdu ⟨[0x00, 0x01]⟩ ⟨[0x00, 0x01]⟩ U))) ∧
    (∀ U : List Byte, 234 ≤ U.length →
      Spdu.from_bytes ((session_connect_spdu ⟨[0x00, 0x01]⟩ ⟨[0x00, 0x01]⟩ U).to_bytes)
        = .error .InvalidLength) := by
  refine ⟨?_, ?_, session_connect_roundtrip_ok, session_connect_roundtrip_reject⟩
  · intro c
    simp [ConnectSpdu.to_bytes]
    congr 1 <;> ring
  · intro c
    refine ⟨ConnectSpdu.encode_connect_accept_item 0 ++ c.encode_session_requirement
      ++ c.encode_calling_session_selector ++ c.encode_called_session_selector, ?_⟩
    simp [ConnectSpdu.to_bytes]
    congr 1 <;> ring

/-- C10 witness: the round-trip holds at `U = [0xBB]` and the LI check
rejects the encoding at a 234-byte payload. -/
theorem connect_spdu_length_truncation_witness :
    (([0xBB] : List Byte).length ≤ 233 ∧
      Spdu.from_bytes
          ((session_connect_spdu ⟨[0x00, 0x01]⟩ ⟨[0x00, 0x01]⟩ [0xBB]).to_bytes)
        = .ok (.Connect (session_connect_spdu ⟨[0x00, 0x01]⟩ ⟨[0x00, 0x01]⟩ [0xBB]))) ∧
    (234 ≤ (List.replicate 234 (0 : Byte)).length ∧
      Spdu.from_bytes ((session_connect_spdu ⟨[0x00, 0x01]⟩ ⟨[0x00, 0x01]⟩
          (List.replicate 234 (0 : Byte))).to_bytes)
        = .error .InvalidLength) :=
  ⟨⟨by decide, connect_spdu_length_truncation.2.2.1 [0xBB] (by decide)⟩,
    ⟨by rw [List.length_replicate], connect_spdu_length_truncation.2.2.2
      (List.replicate 234 (0 : Byte)) (by rw [List.length_replicate])⟩⟩

end Session61850

/-! ## Claim theorems: MMS client -/

namespace Mms61850

/-- C8: `MmsClient::read` returns the decoded values in order when every
access result is a success, and returns the `DataAccessError` of the first
failure element otherwise (everything after the first failure is
discarded by the short-circuiting `collect`). -/
theorem mms_read_access_results :
    (∀ (α : Type) (ds : List α),
      read_collect_results (ds.map AccessResult.success) = .ok ds) ∧
    (∀ (α : Type) (ds : List α) (e : Int) (rest : List (AccessResult α)),
      read_collect_results (ds.map AccessResult.success ++ .failure e :: rest)
        = .error (.DataAccessError e)) := by
  constructor
  · intro α ds
    induction ds with
    | nil => rfl
    | cons d ds ih => simp [read_collect_results, ih, Except.map]
  · intro α ds e rest
    induction ds with
    | nil => rfl
    | cons d ds ih => simp [read_collect_results, ih, Except.map]

/-- The `get_name_list` pagination loop, for any initial `continue_after`:
one request per page, each carrying the previous page's last identifier,
stopping at the first page with `more_follows = false` and returning the
concatenation of the consumed pages' identifiers. -/
theorem get_name_list_run_spec (pages : List GetNameListResponse)
    (last : GetNameListResponse) (extra : List GetNameListResponse)
    (hp : ∀ p ∈ pages, p.more_follows = true) (hl : last.more_follows = false) :
    ∀ ca, get_name_list_run (pages ++ last :: extra) ca
      = some (ca :: pages.map (fun p => p.list_of_identifier.getLast?),
        ((pages ++ [last]).map (fun p => p.list_of_identifier)).flatten) := by
  induction pages with
  | nil =>
    intro ca
    simp [get_name_list_run, hl]
  | cons p rest ih =>
    intro ca
    have hpm : p.more_follows = true := hp p (by simp)
    have ih2 := ih (fun q hq => hp q (by simp [hq])) p.list_of_identifier.getLast?
    simp [get_name_list_run, hpm, ih2]

/-- The `file_directory` pagination loop, exactly as
`get_name_list_run_spec` with the last entry's `file_name` as
`continue_after`. -/
theorem file_directory_run_spec {α : Type} (pages : List (FileDirectoryResponse α))
    (last : FileDirectoryResponse α) (extra : List (FileDirectoryResponse α))
    (hp : ∀ p ∈ pages, p.more_follows = true) (hl : last.more_follows = false) :
    ∀ ca, file_directory_run (pages ++ last :: extra) ca
      = some (ca :: pages.map (fun p =>
          (p.list_of_directory_entry.getLast?).map (fun entry => entry.file_name)),
        ((pages ++ [last]).map (fun p => p.list_of_directory_entry)).flatten) := by
  induction pages with
  | nil =>
    intro ca
    simp [file_directory_run, hl]
  | cons p rest ih =>
    intro ca
    have hpm : p.more_follows = true := hp p (by simp)
    have ih2 := ih (fun q hq => hp q (by simp [hq]))
      ((p.list_of_directory_entry.getLast?).map (fun entry => entry.file_name))
    simp [file_directory_run, hpm, ih2]

/-- C9: for any page sequence whose first `more_follows = false` page is
`last`, `get_name_list` issues the first request with `continue_after`
absent, each subsequent request with the previous page's last identifier,
stops exactly at `last` (any further pages are never requested), and
returns the concatenation of the consumed pages' identifiers in arrival
order; `file_directory` behaves the same using the last entry's filename. -/
theorem mms_pagination_loops :
    (∀ (pages : List GetNameListResponse) (last : GetNameListResponse)
        (extra : List GetNameListResponse),
      (∀ p ∈ pages, p.more_follows = true) → last.more_follows = false →
      get_name_list_run (pages ++ last :: extra) none
        = some (none :: pages.map (fun p => p.list_of_identifier.getLast?),
            ((pages ++ [last]).map (fun p => p.list_of_identifier)).flatten)) ∧
    (∀ (α : Type) (pages : List (FileDirectoryResponse α))
        (last : FileDirectoryResponse α) (extra : List (FileDirectoryResponse α)),
      (∀ p ∈ pages, p.more_follows = true) → last.more_follows = false →
      file_directory_run (pages ++ last :: extra) none
        = some (none :: pages.map (fun p =>
            (p.list_of_directory_entry.getLast?).map (fun entry => entry.file_name)),
          ((pages ++ [last]).map (fun p => p.list_of_directory_entry)).flatten)) :=
  ⟨fun pages last extra hp hl => get_name_list_run_spec pages last extra hp hl none,
    fun _ pages last extra hp hl => file_directory_run_spec pages last extra hp hl none⟩

/-- C9 witness: the spec's S5 scenario — pages `{"LD0","LD1"}` with
`more_follows = true` then `{"LD2"}` with `more_follows = false` — yields
requests `[none, some "LD1"]` and names `["LD0", "LD1", "LD2"]`; and a
one-page file-directory instance. -/
theorem mms_pagination_loops_witness :
    get_name_list_run [⟨["LD0", "LD1"], true⟩, ⟨["LD2"], false⟩] none
      = some ([none, some "LD1"], ["LD0", "LD1", "LD2"]) ∧
    file_directory_run [(⟨[⟨(7 : Nat)⟩], false⟩ : FileDirectoryResponse Nat)] none
      = some ([none], [⟨(7 : Nat)⟩]) := by
  constructor
  · have h := mms_pagination_loops.1 [⟨["LD0", "LD1"], true⟩] ⟨["LD2"], false⟩ []
      (by decide) (by decide)
    simpa using h
  · have h := mms_pagination_loops.2 Nat [] ⟨[⟨(7 : Nat)⟩], false⟩ []
      (by simp) (by decide)
    simpa using h

end Mms61850

namespace Mms61850

/-- C2: `MmsClient::connect` accepts the decoded Initiate response exactly
when it is an Initiate-Response PDU whose negotiated version is 1, whose
`local_detail_called` (when present) is at least 64, whose negotiated
outstanding windows do not exceed the proposed ones, and whose negotiated
nesting level (when present) does not exceed the proposed one; in
particular (proposing windows 10/10 and nesting 10) a response with
`local_detail_called = 63` fails with `MinPduSizeExceeded`, a response with
`negotiated_max_serv_outstanding_called = 11` fails with
`MaxServOutstandingCalledExceeded`, a PDU other than an Initiate-Response
fails with `UnexpectedServiceResponse`, and a conforming response is
accepted. -/
theorem mms_connect_initiate_validation :
    (∀ (calling called nesting : Int) (response : MMSpdu),
      mms_connect_check calling called nesting response = .ok () ↔
      ∃ r : InitiateResponsePDU, response = .initiate_ResponsePDU r ∧
        r.init_response_detail.negotiated_version_number = 1 ∧
        (∀ size ∈ r.local_detail_called, 64 ≤ size) ∧
        r.negotiated_max_serv_outstanding_called ≤ called ∧
        r.negotiated_max_serv_outstanding_calling ≤ calling ∧
        (∀ level ∈ r.negotiated_data_structure_nesting_level, level ≤ nesting)) ∧
    mms_connect_check 10 10 10 (.initiate_ResponsePDU
        ⟨some 63, 10, 10, some 10, ⟨1⟩⟩) = .error .MinPduSizeExceeded ∧
    mms_connect_check 10 10 10 (.initiate_ResponsePDU
        ⟨some 8192, 10, 11, some 10, ⟨1⟩⟩) = .error .MaxServOutstandingCalledExceeded ∧
    mms_connect_check 10 10 10 .confirmed_ResponsePDU
      = .error .UnexpectedServiceResponse ∧
    mms_connect_check 10 10 10 (.initiate_ResponsePDU
        ⟨some 8192, 10, 10, some 10, ⟨1⟩⟩) = .ok () := by
  refine ⟨?_, rfl, rfl, rfl, rfl⟩
  intro calling called nesting response
  cases response with
  | initiate_ResponsePDU r =>
    obtain ⟨ld, mcg, mcd, mnl, ⟨ver⟩⟩ := r
    simp only [mms_connect_check]
    cases ld <;> cases mnl <;>
      (split_ifs <;> simp_all <;> omega)
  | _ => simp [mms_connect_check]

end Mms61850

namespace Mms61850

theorem find?_filter_ne (i j : Nat) (h : j ≠ i) :
    ∀ m : List (Nat × Nat),
      List.find? (fun p => p.1 = j) (m.filter (fun p => p.1 ≠ i))
        = List.find? (fun p => p.1 = j) m
  | [] => rfl
  | p :: m => by
    rw [List.filter_cons]
    by_cases hp : p.1 = i
    · have hpj : ¬ (p.1 = j) := fun hh => h (by omega)
      rw [if_neg (by simp [hp])]
      rw [List.find?_cons_of_neg _ (by simp [hpj])]
      exact find?_filter_ne i j h m
    · by_cases hj : p.1 = j
      · rw [if_pos (by simp [hp])]
        rw [List.find?_cons_of_pos _ (by simp [hj]), List.find?_cons_of_pos _ (by simp [hj])]
      · rw [if_pos (by simp [hp])]
        rw [List.find?_cons_of_neg _ (by simp [hj]), List.find?_cons_of_neg _ (by simp [hj])]
        exact find?_filter_ne i j h m

theorem dispatcher_run_append (events : List DispatcherEvent) (e : DispatcherEvent) :
    dispatcher_run (events ++ [e]) = dispatcher_step (dispatcher_run events) e := by
  simp [dispatcher_run, List.foldl_append]

theorem dispatcher_step_preserves_sent (s : DispatcherState) (e : DispatcherEvent)
    (h : ∀ w, e ≠ .request w true) :
    (dispatcher_step s e).invoke_id = s.invoke_id ∧ (dispatcher_step s e).sent = s.sent := by
  cases e with
  | request w ok =>
    cases ok with
    | true => exact absurd rfl (h w)
    | false => simp [dispatcher_step]
  | confirmedResponse i v =>
    cases hm : mapLookup s.response_map i <;> simp [dispatcher_step, hm]
  | confirmedError i => simp [dispatcher_step]
  | reject o => cases o <;> simp [dispatcher_step]
  | unconfirmedReport => simp [dispatcher_step]
  | otherIncoming => simp [dispatcher_step]

theorem count_sent_append_request_true (events : List DispatcherEvent) (w : Nat) :
    count_sent_requests (events ++ [.request w true]) = count_sent_requests events + 1 := by
  simp [count_sent_requests, List.filter_append]

theorem count_sent_append_other (events : List DispatcherEvent) (e : DispatcherEvent)
    (h : ∀ w, e ≠ .request w true) :
    count_sent_requests (events ++ [e]) = count_sent_requests events := by
  have : (match e with | .request _ true => true | _ => false) = false := by
    cases e with
    | request w ok =>
      cases ok with
      | true => exact absurd rfl (h w)
      | false => rfl
    | _ => rfl
  simp [count_sent_requests, List.filter_append, this]

theorem dispatcher_run_invariant (events : List DispatcherEvent) :
    (dispatcher_run events).invoke_id = count_sent_requests events % 2 ^ 32 ∧
    (count_sent_requests events ≤ 2 ^ 32 →
      (dispatcher_run events).sent.map Prod.fst
        = List.range (count_sent_requests events)) := by
  induction events using List.reverseRecOn with
  | nil =>
    constructor
    · rfl
    · intro _
      rfl
  | append_singleton evs e ih =>
    rw [dispatcher_run_append]
    by_cases he : ∀ w, e ≠ .request w true
    · rw [count_sent_append_other evs e he]
      obtain ⟨h1, h2⟩ := dispatcher_step_preserves_sent (dispatcher_run evs) e he
      rw [h1, h2]
      exact ih
    · push_neg at he
      obtain ⟨w, hw⟩ := he
      subst hw
      rw [count_sent_append_request_true]
      set c := count_sent_requests evs with hc
      constructor
      · simp only [dispatcher_step, if_pos]
        rw [ih.1]
        have h32 : (2 : Nat) ^ 32 = 4294967296 := by norm_num
        rw [h32]
        omega
      · intro hle
        have hlt : c < 2 ^ 32 := by omega
        simp only [dispatcher_step, if_pos]
        rw [List.map_append, ih.2 (by omega), ih.1, Nat.mod_eq_of_lt hlt]
        simp [List.range_succ]

/-- C1: invoke ids are assigned to successfully sent requests in strictly
monotonic order starting at 0 (`List.range`), for any interleaving of
events and as long as the `u32` counter does not wrap; a Confirmed-Response
carrying invoke id `i` completes exactly the waiter registered under `i`
and removes it from the map, leaving every other registered waiter's entry
untouched; and a response whose invoke id has no registered waiter leaves
the whole state unchanged. -/
theorem mms_dispatcher_invoke_ids_and_correlation :
    (∀ events : List DispatcherEvent, count_sent_requests events ≤ 2 ^ 32 →
      (dispatcher_run events).sent.map Prod.fst
        = List.range (count_sent_requests events)) ∧
    (∀ (s : DispatcherState) (i v w : Nat),
      mapLookup s.response_map i = some w →
      dispatcher_step s (.confirmedResponse i v)
        = { s with response_map := mapRemove s.response_map i,
                   completed := s.completed ++ [(w, v)] }) ∧
    (∀ (s : DispatcherState) (i j : Nat), j ≠ i →
      mapLookup (mapRemove s.response_map i) j = mapLookup s.response_map j) ∧
    (∀ (s : DispatcherState) (i v : Nat),
      mapLookup s.response_map i = none →
      dispatcher_step s (.confirmedResponse i v) = s) := by
  refine ⟨fun events h => (dispatcher_run_invariant events).2 h, ?_, ?_, ?_⟩
  · intro s i v w h
    simp [dispatcher_step, h]
  · intro s i j h
    rw [mapLookup, mapRemove, mapLookup, find?_filter_ne i j h s.response_map]
  · intro s i v h
    simp [dispatcher_step, h]

/-- C1 witness: two sent requests receive invoke ids 0 and 1; on the state
holding waiters 7 and 8 under ids 0 and 1, a response for id 1 completes
waiter 8 and removes only that entry; a response for the unknown id 5
changes nothing. -/
theorem mms_dispatcher_invoke_ids_and_correlation_witness :
    (count_sent_requests [.request 7 true, .request 8 true] ≤ 2 ^ 32 ∧
      (dispatcher_run [.request 7 true, .request 8 true]).sent.map Prod.fst
        = List.range (count_sent_requests [.request 7 true, .request 8 true])) ∧
    (mapLookup [(0, 7), (1, 8)] 1 = some 8 ∧
      dispatcher_step ⟨2, [(0, 7), (1, 8)], [(0, 7), (1, 8)], []⟩
          (.confirmedResponse 1 5)
        = ⟨2, mapRemove [(0, 7), (1, 8)] 1, [(0, 7), (1, 8)], [] ++ [(8, 5)]⟩) ∧
    ((0 : Nat) ≠ 1 ∧
      mapLookup (mapRemove [(0, 7), (1, 8)] 1) 0 = mapLookup [(0, 7), (1, 8)] 0) ∧
    (mapLookup [(0, 7), (1, 8)] 5 = none ∧
      dispatcher_step ⟨2, [(0, 7), (1, 8)], [(0, 7), (1, 8)], []⟩
          (.confirmedResponse 5 9)
        = ⟨2, [(0, 7), (1, 8)], [(0, 7), (1, 8)], []⟩) :=
  ⟨⟨by decide, mms_dispatcher_invoke_ids_and_correlation.1
      [.request 7 true, .request 8 true] (by decide)⟩,
    ⟨by decide, mms_dispatcher_invoke_ids_and_correlation.2.1
      ⟨2, [(0, 7), (1, 8)], [(0, 7), (1, 8)], []⟩ 1 5 8 (by decide)⟩,
    ⟨by decide, mms_dispatcher_invoke_ids_and_correlation.2.2.1
      ⟨2, [(0, 7), (1, 8)], [(0, 7), (1, 8)], []⟩ 1 0 (by decide)⟩,
    ⟨by decide, mms_dispatcher_invoke_ids_and_correlation.2.2.2
      ⟨2, [(0, 7), (1, 8)], [(0, 7), (1, 8)], []⟩ 5 9 (by decide)⟩⟩

end Mms61850
